import Mathlib

/-!
Verification of the eBPF TCP drop monitor (`src/bpf/monitor.c`) against its
specification. The kernel probe `trace_tcp_drop`, the `event` struct and the
`events` ring-buffer map are embedded from the source; the ring-buffer channel
semantics, the userspace Collector and the event codec are modelled from the
spec (they are described in the spec but have no source under `src/`).
-/

namespace TcpMonitor

/-- 2^32, the number of values of an unsigned 32-bit integer (`u32`). -/
def U32 : Nat := 2 ^ 32

/-- 2^64, the number of values of an unsigned 64-bit integer (`u64`). -/
def U64 : Nat := 2 ^ 64

/-- `struct event { u32 pid; u32 reason; }` from `src/bpf/monitor.c`.
Fields hold the numeric values of the two `u32` members. -/
structure event where
  pid : Nat
  reason : Nat
deriving DecidableEq, Repr

/-- Size in bytes of `struct event`: two consecutive 4-byte `u32` fields,
both 4-byte aligned, hence no padding. -/
def sizeof_event : Nat := 4 + 4

/-- Byte offset of the `pid` field inside `struct event`. -/
def event.pid_offset : Nat := 0

/-- Byte offset of the `reason` field inside `struct event`. -/
def event.reason_offset : Nat := 4

/-- `__uint(max_entries, 1 << 16)` of the `events` ring-buffer map. -/
def events_max_entries : Nat := 1 <<< 16

/-- Shallow embedding of `trace_tcp_drop`.
`reason` is the value of `ctx->reason` (a 32-bit field), `pid_tgid` the
`u64` returned by `bpf_get_current_pid_tgid()`, and `reserveOk` abstracts
whether `bpf_ringbuf_reserve` returns a non-NULL slot. The result is the
probe's `int` return value paired with the event submitted via
`bpf_ringbuf_submit`, if any. -/
def trace_tcp_drop (reason pid_tgid : Nat) (reserveOk : Bool) :
    Int × Option event :=
  if reason ≤ 1 then (0, none)
  else if reserveOk then
    (0, some { pid := pid_tgid >>> 32 % U32, reason := reason })
  else (0, none)

/-- One ring-buffer API call made by the probe, with the size argument of a
reservation and whether it succeeded. `discard` stands for
`bpf_ringbuf_discard`, which the probe never calls. -/
inductive RbOp where
  | reserve (size : Nat) (ok : Bool)
  | submit
  | discard
deriving DecidableEq, Repr

/-- Whether an operation is a successful reservation. -/
def RbOp.isOkReserve : RbOp → Bool
  | .reserve _ ok => ok
  | _ => false

/-- Whether an operation is a reservation attempt (successful or not). -/
def RbOp.isReserve : RbOp → Bool
  | .reserve _ _ => true
  | _ => false

/-- Whether an operation is a submit. -/
def RbOp.isSubmit : RbOp → Bool
  | .submit => true
  | _ => false

/-- The sequence of ring-buffer API calls one invocation of `trace_tcp_drop`
makes: nothing when filtered, a failed reserve when the buffer is full, and
a reserve of `sizeof(struct event)` bytes followed by a submit otherwise. -/
def probeOps (reason : Nat) (reserveOk : Bool) : List RbOp :=
  if reason ≤ 1 then []
  else if reserveOk then [.reserve sizeof_event true, .submit]
  else [.reserve sizeof_event false]

/-- Modelled from the spec: the Ring Buffer Channel as a bounded FIFO queue
of events (front = oldest). A reservation of one record succeeds when the
bytes already used plus one record fit in the capacity. -/
def ringbuf_reserve_ok (cap : Nat) (ch : List event) : Bool :=
  decide (sizeof_event * (ch.length + 1) ≤ cap)

/-- One probe invocation against a channel of capacity `cap`: the submitted
event, if any, is appended at the tail of the FIFO. -/
def probeStep (cap : Nat) (ch : List event) (reason pid_tgid : Nat) :
    List event :=
  match (trace_tcp_drop reason pid_tgid (ringbuf_reserve_ok cap ch)).2 with
  | some e => ch ++ [e]
  | none => ch

/-- A sequence of probe invocations with the given context reasons, starting
from an empty channel. The resulting list is what the Collector dequeues, in
FIFO order. -/
def runProbes (cap : Nat) (reasons : List Nat) (pid_tgid : Nat) :
    List event :=
  reasons.foldl (fun ch r => probeStep cap ch r pid_tgid) []

/-- Modelled from the spec: consumer-side decode error taxonomy. -/
inductive DecodeError where
  | MalformedRecord
deriving DecidableEq, Repr

/-- The four bytes of a `u32` value in memory order (little-endian, the
native order of the platforms the probe targets). -/
def u32bytes (n : Nat) : List Nat :=
  [n % 256, n / 256 % 256, n / 65536 % 256, n / 16777216 % 256]

/-- The `u32` value stored as the four bytes `b0 b1 b2 b3`. -/
def u32val (b0 b1 b2 b3 : Nat) : Nat :=
  b0 + 256 * b1 + 65536 * b2 + 16777216 * b3

/-- Modelled from the spec: `encode(Event) -> bytes`. Fixed layout: the
`pid` word followed by the `reason` word, no padding. -/
def encode (e : event) : List Nat :=
  u32bytes e.pid ++ u32bytes e.reason

/-- Modelled from the spec: `decode(bytes) -> Event | error`, failing with
`MalformedRecord` when the input length is not 8 bytes. -/
def decode (bs : List Nat) : Except DecodeError event :=
  if bs.length = 8 then
    .ok { pid := u32val (bs.getD 0 0) (bs.getD 1 0) (bs.getD 2 0) (bs.getD 3 0),
          reason := u32val (bs.getD 4 0) (bs.getD 5 0) (bs.getD 6 0) (bs.getD 7 0) }
  else
    .error .MalformedRecord

/-- Modelled from the spec: the raw records the probe has placed in the
channel, as the byte strings the Collector will decode. -/
def channelBytes (cap : Nat) (reasons : List Nat) (pid_tgid : Nat) :
    List (List Nat) :=
  (runProbes cap reasons pid_tgid).map encode

/-- A well-formed event: both fields are `u32` values. -/
def event.wf (e : event) : Prop := e.pid < U32 ∧ e.reason < U32

instance (e : event) : Decidable e.wf := by
  unfold event.wf; infer_instance

/-! ### Helper lemmas -/

/-- Reassembling the four little-endian bytes of a `u32` value gives the
value back. -/
lemma u32val_u32bytes (n : Nat) (h : n < U32) :
    u32val (n % 256) (n / 256 % 256) (n / 65536 % 256) (n / 16777216 % 256) = n := by
  unfold u32val
  unfold U32 at h
  omega

/-- `encode` always produces 8 bytes. -/
lemma encode_length (e : event) : (encode e).length = 8 := by
  simp [encode, u32bytes]

/-- Decoding an encoded well-formed event recovers the event. -/
lemma decode_encode (e : event) (h1 : e.pid < U32) (h2 : e.reason < U32) :
    decode (encode e) = .ok e := by
  unfold decode
  rw [encode_length]
  unfold encode u32bytes
  simp only [List.cons_append, List.nil_append, List.getD_cons_zero,
    List.getD_cons_succ]
  rw [u32val_u32bytes e.pid h1, u32val_u32bytes e.reason h2]
  simp

/-- Case analysis of one probe step: either the channel is unchanged, or the
reason passed the filter and the probe's event is appended at the tail. -/
lemma probeStep_eq_or (cap : Nat) (ch : List event) (r pid_tgid : Nat) :
    probeStep cap ch r pid_tgid = ch ∨
      (1 < r ∧ probeStep cap ch r pid_tgid
        = ch ++ [{ pid := pid_tgid >>> 32 % U32, reason := r }]) := by
  unfold probeStep trace_tcp_drop
  by_cases hr : r ≤ 1
  · simp [hr]
  · cases hOk : ringbuf_reserve_ok cap ch with
    | false => simp [hr, hOk]
    | true =>
      right
      refine ⟨by omega, ?_⟩
      simp [hr, hOk]

/-- Any event in the channel after a run either was already there or was
produced by the probe: its `reason` is one of the input reasons and exceeds
the filter threshold, and its `pid` is a `u32` value. -/
lemma mem_foldl_probe (cap pid_tgid : Nat) :
    ∀ (reasons : List Nat) (ch : List event) (e : event),
      e ∈ reasons.foldl (fun c r => probeStep cap c r pid_tgid) ch →
      e ∈ ch ∨ (1 < e.reason ∧ e.pid < U32 ∧ e.reason ∈ reasons) := by
  intro reasons
  induction reasons with
  | nil => intro ch e h; exact Or.inl h
  | cons r rs ih =>
    intro ch e h
    simp only [List.foldl_cons] at h
    rcases ih (probeStep cap ch r pid_tgid) e h with h' | h'
    · rcases probeStep_eq_or cap ch r pid_tgid with hstep | ⟨hr, hstep⟩
      · rw [hstep] at h'
        exact Or.inl h'
      · rw [hstep] at h'
        rcases List.mem_append.mp h' with h'' | h''
        · exact Or.inl h''
        · have he : e = { pid := pid_tgid >>> 32 % U32, reason := r } :=
            List.mem_singleton.mp h''
          refine Or.inr ⟨?_, ?_, ?_⟩
          · rw [he]; exact hr
          · rw [he]
            exact Nat.mod_lt _ (by unfold U32; omega)
          · rw [he]
            exact List.mem_cons_self r rs
    · exact Or.inr ⟨h'.1, h'.2.1, List.mem_cons_of_mem r h'.2.2⟩

/-- With enough free capacity, a run of probe invocations appends exactly
the events for the reasons above the filter threshold, in order. -/
lemma foldl_probe_reasons (cap pid_tgid : Nat) :
    ∀ (reasons : List Nat) (ch : List event),
      sizeof_event * (ch.length + (reasons.filter (fun r => decide (1 < r))).length) ≤ cap →
      (reasons.foldl (fun c r => probeStep cap c r pid_tgid) ch).map event.reason
        = ch.map event.reason ++ reasons.filter (fun r => decide (1 < r)) := by
  intro reasons
  induction reasons with
  | nil => intro ch _; simp
  | cons r rs ih =>
    intro ch hcap
    simp only [List.foldl_cons]
    by_cases hr : 1 < r
    · have hfil : (r :: rs).filter (fun x => decide (1 < x))
          = r :: rs.filter (fun x => decide (1 < x)) := by
        simp [List.filter_cons, hr]
      rw [hfil] at hcap
      simp only [List.length_cons] at hcap
      have hok : ringbuf_reserve_ok cap ch = true := by
        unfold ringbuf_reserve_ok
        simp only [decide_eq_true_eq]
        unfold sizeof_event at hcap ⊢
        omega
      have hr' : ¬ r ≤ 1 := by omega
      have hstep : probeStep cap ch r pid_tgid
          = ch ++ [({ pid := pid_tgid >>> 32 % U32, reason := r } : event)] := by
        unfold probeStep trace_tcp_drop
        rw [hok]
        simp [hr']
      rw [hstep]
      have hcap' : sizeof_event *
          ((ch ++ [({ pid := pid_tgid >>> 32 % U32, reason := r } : event)]).length
            + (rs.filter (fun x => decide (1 < x))).length) ≤ cap := by
        simp only [List.length_append, List.length_singleton]
        unfold sizeof_event at hcap ⊢
        omega
      rw [ih _ hcap', hfil]
      simp
    · have hr' : r ≤ 1 := by omega
      have hstep : probeStep cap ch r pid_tgid = ch := by
        unfold probeStep trace_tcp_drop
        simp [hr']
      have hfil : (r :: rs).filter (fun x => decide (1 < x))
          = rs.filter (fun x => decide (1 < x)) := by
        simp [List.filter_cons, hr]
      rw [hstep, ih _ (by rw [hfil] at hcap; exact hcap), hfil]

/-! ### Claim theorems -/

/-- C1: for every probe invocation with `ctx->reason > 1` and a successful
ring-buffer reservation, the probe submits exactly one event whose `pid` is
the high 32 bits of the `u64` pid/tgid value and whose `reason` is the
reason read from the context. -/
theorem C1_submits_one_event (reason pid_tgid : Nat)
    (h1 : 1 < reason) (h2 : pid_tgid < U64) :
    (trace_tcp_drop reason pid_tgid true).2
      = some { pid := pid_tgid / 2 ^ 32, reason := reason } ∧
    (probeOps reason true).countP RbOp.isSubmit = 1 := by
  have hr' : ¬ reason ≤ 1 := by omega
  have hpid : pid_tgid >>> 32 % U32 = pid_tgid / 2 ^ 32 := by
    rw [Nat.shiftRight_eq_div_pow]
    apply Nat.mod_eq_of_lt
    unfold U32
    apply Nat.div_lt_of_lt_mul
    unfold U64 at h2
    calc pid_tgid < 2 ^ 64 := h2
      _ = 2 ^ 32 * 2 ^ 32 := by norm_num
  constructor
  · unfold trace_tcp_drop
    simp [hr', hpid]
  · unfold probeOps
    simp [hr']
    rfl

/-- Witness for C1 at `reason = 2`, `pid_tgid = 5 * 2^32 + 7`. -/
theorem C1_submits_one_event_witness :
    (trace_tcp_drop 2 (5 * 2 ^ 32 + 7) true).2 = some { pid := 5, reason := 2 } ∧
    (probeOps 2 true).countP RbOp.isSubmit = 1 := by
  have h := C1_submits_one_event 2 (5 * 2 ^ 32 + 7) (by norm_num)
    (by unfold U64; norm_num)
  refine ⟨?_, h.2⟩
  rw [h.1]
  norm_num

/-- C2: for `ctx->reason ≤ 1` the probe returns success and emits nothing;
consequently every event in the channel has `reason > 1`. -/
theorem C2_filter_invariant :
    (∀ reason pid_tgid : Nat, ∀ reserveOk : Bool, reason ≤ 1 →
        trace_tcp_drop reason pid_tgid reserveOk = (0, none)) ∧
    (∀ (cap : Nat) (reasons : List Nat) (pid_tgid : Nat) (e : event),
        e ∈ runProbes cap reasons pid_tgid → 1 < e.reason) := by
  constructor
  · intro reason pid_tgid reserveOk h
    unfold trace_tcp_drop
    simp [h]
  · intro cap reasons pid_tgid e h
    unfold runProbes at h
    rcases mem_foldl_probe cap pid_tgid reasons [] e h with h' | h'
    · simp at h'
    · exact h'.1

/-- Witness for C2: a filtered invocation at reason 1, and the invariant on
the channel produced from reasons `[0, 5]`. -/
theorem C2_filter_invariant_witness :
    trace_tcp_drop 1 99 true = (0, none) ∧ 1 < (event.mk 0 5).reason :=
  ⟨C2_filter_invariant.1 1 99 true (by decide),
   C2_filter_invariant.2 65536 [0, 5] 0 (event.mk 0 5) (by decide)⟩

/-- C3: when the reservation fails, the probe returns success with no event,
makes exactly one reservation attempt (no retry) and never submits. -/
theorem C3_reservation_failure_silent_drop (reason pid_tgid : Nat)
    (h : 1 < reason) :
    trace_tcp_drop reason pid_tgid false = (0, none) ∧
    (probeOps reason false).countP RbOp.isReserve = 1 ∧
    (probeOps reason false).countP RbOp.isSubmit = 0 := by
  have hr' : ¬ reason ≤ 1 := by omega
  refine ⟨?_, ?_, ?_⟩
  · unfold trace_tcp_drop
    simp [hr']
  · unfold probeOps
    simp [hr']
    rfl
  · unfold probeOps
    simp [hr']
    rfl

/-- Witness for C3 at `reason = 5`. -/
theorem C3_reservation_failure_silent_drop_witness :
    trace_tcp_drop 5 3 false = (0, none) ∧
    (probeOps 5 false).countP RbOp.isReserve = 1 ∧
    (probeOps 5 false).countP RbOp.isSubmit = 0 :=
  C3_reservation_failure_silent_drop 5 3 (by decide)

/-- C4: for every context reason, task and reservation outcome, the probe
returns 0 ("handled"); no failure is propagated to the kernel drop path. -/
theorem C4_always_returns_zero (reason pid_tgid : Nat) (reserveOk : Bool) :
    (trace_tcp_drop reason pid_tgid reserveOk).1 = 0 := by
  unfold trace_tcp_drop
  by_cases h : reason ≤ 1 <;> cases reserveOk <;> simp [h]

/-- C5: with capacity for all passing events, the Collector observes exactly
the events whose reasons pass the filter, in submission order; in particular
reasons `[0, 2, 5, 1, 9]` yield `[2, 5, 9]`. -/
theorem C5_fifo_submission_order (cap : Nat) (reasons : List Nat)
    (pid_tgid : Nat)
    (hcap : sizeof_event * (reasons.filter (fun r => decide (1 < r))).length ≤ cap) :
    (runProbes cap reasons pid_tgid).map event.reason
        = reasons.filter (fun r => decide (1 < r)) ∧
    (runProbes 65536 [0, 2, 5, 1, 9] pid_tgid).map event.reason = [2, 5, 9] := by
  constructor
  · unfold runProbes
    have h := foldl_probe_reasons cap pid_tgid reasons []
      (by simpa using hcap)
    simpa using h
  · unfold runProbes
    have h := foldl_probe_reasons 65536 pid_tgid [0, 2, 5, 1, 9] [] (by decide)
    rw [h]
    decide

/-- Witness for C5 at capacity 65536, reasons `[0, 2, 5, 1, 9]`. -/
theorem C5_fifo_submission_order_witness :
    (runProbes 65536 [0, 2, 5, 1, 9] 7).map event.reason
        = [0, 2, 5, 1, 9].filter (fun r => decide (1 < r)) ∧
    (runProbes 65536 [0, 2, 5, 1, 9] 7).map event.reason = [2, 5, 9] :=
  C5_fifo_submission_order 65536 [0, 2, 5, 1, 9] 7 (by decide)

/-- C6: the Event record is two consecutive unsigned 32-bit words, `pid`
at offset 0 and `reason` at offset 4, with no padding and total size 8. -/
theorem C6_event_layout (e : event) :
    sizeof_event = 8 ∧
    (encode e).length = sizeof_event ∧
    (encode e).take 4 = u32bytes e.pid ∧
    (encode e).drop 4 = u32bytes e.reason ∧
    event.pid_offset = 0 ∧ event.reason_offset = 4 := by
  refine ⟨rfl, ?_, ?_, ?_, rfl, rfl⟩ <;> simp [encode, u32bytes, sizeof_event]

/-- C7: decoding an encoded valid event yields the event back, and decode
fails with `MalformedRecord` on any input whose length is not 8 bytes. -/
theorem C7_codec_roundtrip (e : event) (h : e.wf) :
    decode (encode e) = .ok e ∧
    ∀ bs : List Nat, bs.length ≠ 8 → decode bs = .error .MalformedRecord := by
  refine ⟨decode_encode e h.1 h.2, ?_⟩
  intro bs hbs
  unfold decode
  simp [hbs]

/-- Witness for C7 at the event `⟨3, 7⟩` and the 3-byte input `[1, 2, 3]`. -/
theorem C7_codec_roundtrip_witness :
    decode (encode ⟨3, 7⟩) = .ok (⟨3, 7⟩ : event) ∧
    decode [1, 2, 3] = .error .MalformedRecord := by
  have h := C7_codec_roundtrip ⟨3, 7⟩ (by decide)
  exact ⟨h.1, h.2 [1, 2, 3] (by decide)⟩

/-- C8: the ring buffer's declared capacity `1 << 16` is 65536 bytes and a
power of two. -/
theorem C8_capacity_power_of_two :
    events_max_entries = 65536 ∧ ∃ k, events_max_entries = 2 ^ k :=
  ⟨rfl, 16, rfl⟩

/-- C9: in every invocation the submits balance the successful reservations,
at most one submit occurs, the probe never discards a reservation, and a
successful reservation on an unfiltered reason is immediately followed by
exactly one submit before the probe returns. -/
theorem C9_reserve_submit_discipline (reason : Nat) (reserveOk : Bool) :
    (probeOps reason reserveOk).countP RbOp.isSubmit
        = (probeOps reason reserveOk).countP RbOp.isOkReserve ∧
    (probeOps reason reserveOk).countP RbOp.isSubmit ≤ 1 ∧
    RbOp.discard ∉ probeOps reason reserveOk ∧
    (reserveOk = true → 1 < reason →
      probeOps reason reserveOk = [.reserve sizeof_event true, .submit]) := by
  by_cases h : reason ≤ 1 <;> cases reserveOk <;>
    simp [probeOps, h, List.countP_cons, RbOp.isSubmit, RbOp.isOkReserve]

/-- Witness for C9 at `reason = 5` with a successful reservation. -/
theorem C9_reserve_submit_discipline_witness :
    (probeOps 5 true).countP RbOp.isSubmit
        = (probeOps 5 true).countP RbOp.isOkReserve ∧
    probeOps 5 true = [.reserve sizeof_event true, .submit] := by
  have h := C9_reserve_submit_discipline 5 true
  exact ⟨h.1, h.2.2.2 rfl (by decide)⟩

/-- C10: every record the probe reserves and submits is exactly 8 bytes, so
the consumer's malformed-record branch never fires on probe-produced
records. -/
theorem C10_records_never_malformed (cap : Nat) (reasons : List Nat)
    (pid_tgid : Nat) (hr : ∀ r ∈ reasons, r < U32) :
    ∀ rec ∈ channelBytes cap reasons pid_tgid,
      rec.length = 8 ∧ ∃ ev : event, decode rec = .ok ev := by
  intro rec hrec
  unfold channelBytes at hrec
  rcases List.mem_map.mp hrec with ⟨e, he, rfl⟩
  unfold runProbes at he
  rcases mem_foldl_probe cap pid_tgid reasons [] e he with h' | h'
  · simp at h'
  · exact ⟨encode_length e, e, decode_encode e h'.2.1 (hr _ h'.2.2)⟩

/-- Witness for C10 at capacity 65536, reasons `[2]`, pid/tgid 0. -/
theorem C10_records_never_malformed_witness :
    (encode ⟨0, 2⟩).length = 8 ∧
    ∃ ev : event, decode (encode (⟨0, 2⟩ : event)) = .ok ev :=
  C10_records_never_malformed 65536 [2] 0 (by decide) (encode ⟨0, 2⟩) (by decide)

end TcpMonitor
